import Mathlib

/-!
Shallow embedding of the podcast-transcription pipeline (`app.py`).

The program is a single sequential pipeline: resolve a media URL, download
it, split it into segments with an external tool, transcribe every segment
with bounded retry, summarize the aggregate, and clean up all
session-namespaced artifact files in a final cleanup block.

External effects (HTTP, the ASR service, the LLM service, the segmentation
tool, and `os.remove`) are modelled by an explicit environment `Env` whose
fields record the outcome each external call would produce.  The filesystem
is a list of file names.  All definitions below are translated from the
source; `RunResult` additionally records observable events of a run (error
messages shown, texts delivered, ASR attempt counts, the argument passed to
the summarizer, the filesystem state at each loop iteration) so that the
theorems can speak about them.
-/

namespace PodcastTranscriber

/-- The part of an HTTP response the URL resolver inspects: the
Content-Type header and the decoded body text. -/
structure HttpResponse where
  contentType : String
  body : String

/-- Containment of a contiguous character segment, checked position by
position. -/
def containsSeg (needle : List Char) : List Char → Bool
  | [] => needle.isEmpty
  | c :: rest => needle.isPrefixOf (c :: rest) || containsSeg needle rest

/-- Models the Python expression `needle in haystack` (substring test on
code points). -/
def pyIn (needle haystack : String) : Bool :=
  containsSeg needle.data haystack.data

/-- Models Python `f.startswith(p)`: `p` is a code-point prefix of `f`. -/
def startswith (f p : String) : Bool :=
  p.data.isPrefixOf f.data

/-- Models Python `f.endswith(s)` for one suffix: code-point suffix test. -/
def endswith (f s : String) : Bool :=
  s.data.isSuffixOf f.data

/-- Function `get_real_audio_url` (app.py lines 26-39).  `resp` is the outcome of the
initial `requests.get` (`none` = the request raised), `findAudioUrl` models
the regex search for an embedded `.m4a`/`.mp3` URL in the page body. -/
def get_real_audio_url (resp : Option HttpResponse)
    (findAudioUrl : String → Option String) (url : String) : Option String :=
  match resp with
  | none => none
  | some r =>
    if pyIn "audio" r.contentType || endswith url ".m4a" || endswith url ".mp3" then
      some url
    else
      findAudioUrl r.body

/-- The sentinel fragment returned after three failed ASR attempts
(app.py line 55). -/
def sentinel : String := "[该片段转写失败]"

/-- Models `text.encode("utf-8", "ignore").decode("utf-8")` (app.py
line 52).  Every Lean `Char` is a Unicode scalar value, which round-trips
through UTF-8 unchanged, so on the embedded string type this re-encoding is
the identity (only unpaired surrogates, unrepresentable here, are dropped
by the real call). -/
def reencode (s : String) : String := s

/-- The retry loop of `transcribe_with_retry` (app.py lines 43-55):
`asr k` is the outcome of the ASR call on attempt `k` (`none` = the call
raised).  `fuel` is the number of attempts remaining (`range(3)`). -/
def retryGo (asr : Nat → Option String) : Nat → Nat → String
  | _, 0 => sentinel
  | k, fuel + 1 =>
    match asr k with
    | some t => reencode t
    | none => retryGo asr (k + 1) fuel

/-- Function `transcribe_with_retry` (app.py lines 42-55), for one segment file whose
per-attempt ASR outcomes are given by `asr`. -/
def transcribe_with_retry (asr : Nat → Option String) : String :=
  retryGo asr 0 3

/-- Number of ASR attempts actually performed by the retry loop. -/
def retryCount (asr : Nat → Option String) : Nat → Nat → Nat
  | _, 0 => 0
  | k, fuel + 1 =>
    match asr k with
    | some _ => 1
    | none => 1 + retryCount asr (k + 1) fuel

/-- Total ASR attempts performed by `transcribe_with_retry`. -/
def asrAttempts (asr : Nat → Option String) : Nat :=
  retryCount asr 0 3

/-- Fixed text of the summarization prompt up to the source-URL field. -/
def promptHead : String :=
  "\n你必须用中文输出 Markdown，并且不管用户提示是什么，都要包含以下固定模块：\n1. 标题（可自拟）\n2. 基本信息（至少包含“"

/-- The prompt built by `summarize_to_markdown` (app.py lines 62-75). -/
def summaryPrompt (transcript source_url custom_prompt ts : String) : String :=
  promptHead ++ "原始链接：" ++ source_url ++ "”和“整理时间：" ++ ts ++
    "”）\n3. 摘要（列出 3~4 条要点）\n4. 逐段正文（按逻辑段落概括）\n5. 灵感/待办（用 - [ ] 形式至少 2 条）\n\n用户附加提示如下：\n" ++
    custom_prompt ++
    "\n\n以下是播客的完整转写内容，请在满足固定模块的前提下生成 Markdown：\n" ++
    transcript ++ "\n"

/-- Function `summarize_to_markdown` (app.py lines 58-85): builds the prompt and
returns the stripped LLM response; `llm` maps the prompt to the response
content (`none` = the call raised). -/
def summarize_to_markdown (llm : String → Option String) (ts : String)
    (transcript source_url custom_prompt : String) : Option String :=
  (llm (summaryPrompt transcript source_url custom_prompt ts)).map String.trim

/-- The degraded document built when summarization raises
(app.py line 162). -/
def degradedDoc (errMsg transcript : String) : String :=
  "# 自动摘要失败\n\n错误信息：" ++ errMsg ++ "\n\n---\n" ++ transcript

/-- Name of the downloaded media file `src_<id>.m4a` (app.py line 101). -/
def tempSource (sid : String) : String := "src_" ++ sid ++ ".m4a"

/-- The name stem `chunk_<id>_` shared by all segment files of a session
(app.py lines 112 and 138). -/
def chunkStem (sid : String) : String := "chunk_" ++ sid ++ "_"

/-- The decimal rendering produced by the C format `%03d`: zero-padded to
three digits below 1000, plain decimal above. -/
def fmt03 (i : Nat) : String :=
  if i < 1000 then
    String.mk [Nat.digitChar (i / 100), Nat.digitChar (i / 10 % 10), Nat.digitChar (i % 10)]
  else
    Nat.repr i

/-- The segment file name `chunk_<id>_%03d.mp3` for ordinal `i`
(app.py line 112). -/
def chunkName (sid : String) (i : Nat) : String :=
  chunkStem sid ++ fmt03 i ++ ".mp3"

/-- Code-point lexicographic strict order on character lists: the order in
which Python compares strings. -/
def listLt : List Char → List Char → Bool
  | [], [] => false
  | [], _ :: _ => true
  | _ :: _, [] => false
  | a :: as, b :: bs =>
    if a < b then true
    else if b < a then false
    else listLt as bs

/-- Python string `<` (code-point lexicographic). -/
def pyLt (a b : String) : Bool := listLt a.data b.data

/-- Python string `<=` (code-point lexicographic). -/
def pyLe (a b : String) : Bool := !(listLt b.data a.data)

/-- Insert into a sorted list (auxiliary to `sortStrings`). -/
def insortStr (a : String) : List String → List String
  | [] => [a]
  | b :: l => if pyLe a b then a :: b :: l else b :: insortStr a l

/-- Models Python `sorted(...)` on strings (app.py line 137): a comparison
sort by code-point lexicographic order.  On lists of distinct strings every
comparison sort produces the same output, so insertion sort is a faithful
model. -/
def sortStrings : List String → List String
  | [] => []
  | a :: l => insortStr a (sortStrings l)

/-- Outcome of the media download (app.py lines 105-109): success, a
failure before the destination file is created (connection error or
non-success status raised by `raise_for_status`), or a failure after the
destination file exists (error while streaming the body). -/
inductive FetchOutcome where
  | ok
  | failClean (msg : String)
  | failPartial (msg : String)

/-- Outcomes of every external call one pipeline run can make. -/
structure Env where
  httpResp : Option HttpResponse
  findAudioUrl : String → Option String
  fetch : FetchOutcome
  nSegments : Nat
  ffmpegOk : Bool
  ffmpegErrMsg : String
  asr : String → Nat → Option String
  llm : String → Option String
  llmErrMsg : String
  timestamp : String
  removeOk : String → Bool
  osErrMsg : String

/-- Result of the per-segment transcription loop (app.py lines 147-155).
`ok = false` records that `os.remove(chunk)` raised, aborting the loop.
`frags` lists the per-segment texts in processing order, `states` the
filesystem at the start of each iteration (and after the last one). -/
structure LoopOut where
  text : String
  fs : List String
  ok : Bool
  frags : List String
  calls : Nat
  states : List (List String)

/-- The per-segment loop (app.py lines 147-155): transcribe each chunk in
order, append the text and one newline to the accumulator, then delete the
chunk file. -/
def transcriptionLoop (env : Env) : List String → String → List String → LoopOut
  | [], acc, fs => ⟨acc, fs, true, [], 0, [fs]⟩
  | c :: rest, acc, fs =>
    let t := transcribe_with_retry (env.asr c)
    let acc2 := acc ++ t ++ "\n"
    let calls := asrAttempts (env.asr c)
    if env.removeOk c then
      let out := transcriptionLoop env rest acc2 (fs.erase c)
      ⟨out.text, out.fs, out.ok, t :: out.frags, calls + out.calls, fs :: out.states⟩
    else
      ⟨acc2, fs, false, [t], calls, [fs]⟩

/-- The defensive sweep in the cleanup block (app.py lines 182-187): every
file whose name starts with `chunk_<id>_` is removed, each removal inside
`try ... except: pass`, so a file survives only if it is not a session
chunk or its removal fails. -/
def sweepChunks (removeOk : String → Bool) (sid : String) (fs : List String) : List String :=
  fs.filter (fun f => !(startswith f (chunkStem sid)) || !(removeOk f))

/-- The `finally` block (app.py lines 179-187).  `os.remove(temp_source)`
is not guarded: if it raises, the exception propagates (second component
`true`) and the chunk sweep never runs. -/
def cleanup (removeOk : String → Bool) (sid : String) (fs : List String) :
    List String × Bool :=
  if fs.contains (tempSource sid) then
    if removeOk (tempSource sid) then
      (sweepChunks removeOk sid (fs.erase (tempSource sid)), false)
    else
      (fs, true)
  else
    (sweepChunks removeOk sid fs, false)

/-- Filesystem after the download completes: the media file is added. -/
def fsDownloaded (sid : String) (fs0 : List String) : List String :=
  fs0 ++ [tempSource sid]

/-- Filesystem after the segmentation tool ran: it wrote one `chunk` file
per produced segment, named by consecutive ordinals (app.py line 113). -/
def fsSegmented (env : Env) (sid : String) (fs0 : List String) : List String :=
  fsDownloaded sid fs0 ++ (List.range env.nSegments).map (chunkName sid)

/-- The `chunk_files` list (app.py lines 137-139): the directory listing
filtered to the chunk names of this session, sorted lexicographically. -/
def chunkFilesOf (env : Env) (sid : String) (fs0 : List String) : List String :=
  sortStrings ((fsSegmented env sid fs0).filter (fun f => startswith f (chunkStem sid)))

/-- Observable outcome of the `try` body of `process_audio`. -/
structure BodyOut where
  fs : List String
  errors : List String
  transcript : Option String
  markdown : Option String
  frags : List String
  summarySource : Option String
  promptSent : Option String
  calls : Nat
  states : List (List String)

/-- Observable outcome of one whole `process_audio` run. -/
structure RunResult where
  fs : List String
  errors : List String
  transcriptOut : Option String
  markdown : Option String
  frags : List String
  summarySource : Option String
  promptSent : Option String
  fetchedUrl : Option String
  asrCalls : Nat
  raised : Bool
  loopStates : List (List String)

/-- The `try` body of `process_audio` (app.py lines 103-175): download,
segment, transcribe in a loop, summarize; any raised error is caught by the
`except` clause (app.py lines 177-178) which shows `出错：<e>`. -/
def runBody (env : Env) (sid : String) (fs0 : List String)
    (input_url custom_prompt : String) : BodyOut :=
  match env.fetch with
      | FetchOutcome.failClean msg =>
        { fs := fs0, errors := ["出错：" ++ msg], transcript := none, markdown := none,
          frags := [], summarySource := none, promptSent := none, calls := 0, states := [] }
      | FetchOutcome.failPartial msg =>
        { fs := fsDownloaded sid fs0, errors := ["出错：" ++ msg], transcript := none,
          markdown := none, frags := [], summarySource := none, promptSent := none,
          calls := 0, states := [] }
      | FetchOutcome.ok =>
        let fs2 := fsSegmented env sid fs0
        if env.ffmpegOk then
          let chunk_files := chunkFilesOf env sid fs0
          if chunk_files.isEmpty then
            { fs := fs2, errors := ["切片失败，可能是音频格式异常。"], transcript := none,
              markdown := none, frags := [], summarySource := none, promptSent := none,
              calls := 0, states := [] }
          else
            let out := transcriptionLoop env chunk_files "" fs2
            if out.ok then
              let full_text := out.text
              let prompt := summaryPrompt full_text input_url custom_prompt env.timestamp
              let md :=
                match env.llm prompt with
                | some content => content.trim
                | none => degradedDoc env.llmErrMsg full_text
              { fs := out.fs, errors := [], transcript := some full_text,
                markdown := some md, frags := out.frags,
                summarySource := some input_url, promptSent := some prompt,
                calls := out.calls, states := out.states }
            else
              { fs := out.fs, errors := ["出错：" ++ env.osErrMsg], transcript := none,
                markdown := none, frags := out.frags, summarySource := none,
                promptSent := none, calls := out.calls, states := out.states }
        else
          { fs := fs2, errors := ["出错：" ++ env.ffmpegErrMsg], transcript := none,
            markdown := none, frags := [], summarySource := none, promptSent := none,
            calls := 0, states := [] }

/-- Function `process_audio` (app.py lines 88-187).  `sid` is the fresh
`uuid.uuid4().hex` of the run, `fs0` the directory contents before the run.
If resolution fails the function returns before any artifact is created;
otherwise the `try` body runs and the `finally` cleanup is applied to its
filesystem on every exit path. -/
def process_audio (env : Env) (sid : String) (fs0 : List String)
    (input_url custom_prompt : String) : RunResult :=
  match get_real_audio_url env.httpResp env.findAudioUrl input_url with
  | none =>
    { fs := fs0, errors := ["无法解析音频链接，请检查输入。"], transcriptOut := none,
      markdown := none, frags := [], summarySource := none, promptSent := none,
      fetchedUrl := none, asrCalls := 0, raised := false, loopStates := [] }
  | some real_url =>
    let body := runBody env sid fs0 input_url custom_prompt
    let cleaned := cleanup env.removeOk sid body.fs
    { fs := cleaned.1, errors := body.errors, transcriptOut := body.transcript,
      markdown := body.markdown, frags := body.frags,
      summarySource := body.summarySource, promptSent := body.promptSent,
      fetchedUrl := some real_url, asrCalls := body.calls, raised := cleaned.2,
      loopStates := body.states }

/-- Concatenation of fragments, each followed by exactly one newline: the
shape of the aggregated transcript. -/
def concatFrags : List String → String
  | [] => ""
  | t :: r => t ++ "\n" ++ concatFrags r

/-- The filesystem at the start of each loop iteration, and once more after
the last one, when every chunk removal succeeds: the reference trace the
`states` field of the loop is proved equal to. -/
def statesOf : List String → List String → List (List String)
  | [], fs => [fs]
  | c :: rest, fs => fs :: statesOf rest (fs.erase c)

/-- The fragments a run produces: one transcription result per chunk file,
in processing order. -/
def runFrags (env : Env) (sid : String) (fs0 : List String) : List String :=
  (chunkFilesOf env sid fs0).map (fun c => transcribe_with_retry (env.asr c))

/-- The aggregated transcript of a run. -/
def runTranscript (env : Env) (sid : String) (fs0 : List String) : String :=
  concatFrags (runFrags env sid fs0)

/-- A concrete environment for a two-segment run in which every external
call succeeds and resolution rewrites the page URL to an embedded media
URL. -/
def wEnv : Env :=
  { httpResp := some ⟨"text/html", "page"⟩
    findAudioUrl := fun _ => some "http://cdn.example/a.m4a"
    fetch := FetchOutcome.ok
    nSegments := 2
    ffmpegOk := true
    ffmpegErrMsg := "ffmpeg failed"
    asr := fun f _ => some ("T-" ++ f)
    llm := fun _ => some "summary"
    llmErrMsg := "boom"
    timestamp := "2026-10-12 00:00"
    removeOk := fun _ => true
    osErrMsg := "oserr" }

/-- Like `wEnv`, but every ASR attempt on the first chunk file raises. -/
def envC3 : Env :=
  { wEnv with asr := fun f _ => if f = "chunk_s_000.mp3" then none else some ("T-" ++ f) }

/-- Like `wEnv`, but the summarization call always raises. -/
def envC4 : Env :=
  { wEnv with llm := fun _ => none }

/-- Like `wEnv`, but the segmentation tool exits non-zero after writing one
chunk file, and `os.remove` succeeds only on chunk files — in particular it
raises on the downloaded media file. -/
def envC5 : Env :=
  { wEnv with
    ffmpegOk := false
    nSegments := 1
    removeOk := fun f => startswith f (chunkStem "s") }

/-- Like `wEnv`, but the segmentation tool exits non-zero. -/
def envC7 : Env :=
  { wEnv with ffmpegOk := false }

/-- Like `wEnv`, but segmentation produces 1001 chunk files and the ASR
result of a chunk file is its own name, so fragments identify the segment
they transcribe. -/
def envBig : Env :=
  { wEnv with nSegments := 1001, asr := fun f _ => some f }

lemma isPrefixOf_append_self : ∀ (p l : List Char), p.isPrefixOf (p ++ l) = true := by
  intro p l
  induction p with
  | nil => simp [List.isPrefixOf]
  | cons a as ih => simp [List.isPrefixOf, ih]

lemma chunkName_starts (sid : String) (i : Nat) :
    startswith (chunkName sid i) (chunkStem sid) = true := by
  simp [startswith, chunkName, String.data_append, List.append_assoc, isPrefixOf_append_self]

lemma tempSource_not_chunk (sid : String) :
    startswith (tempSource sid) (chunkStem sid) = false := by
  have h1 : ("chunk_" : String).data = 'c' :: "hunk_".data := rfl
  have h2 : ("src_" : String).data = 's' :: "rc_".data := rfl
  simp [startswith, tempSource, chunkStem, String.data_append, h1, h2, List.isPrefixOf]

lemma chunkName_ne_tempSource (sid : String) (i : Nat) :
    chunkName sid i ≠ tempSource sid := by
  intro h
  have hs := chunkName_starts sid i
  rw [h, tempSource_not_chunk] at hs
  exact Bool.false_ne_true hs

lemma listLt_iff_lex : ∀ x y : List Char, listLt x y = true ↔ List.Lex (· < ·) x y := by
  intro x
  induction x with
  | nil =>
    intro y
    cases y with
    | nil =>
      constructor
      · intro h; simp [listLt] at h
      · intro h; cases h
    | cons b bs =>
      constructor
      · intro _; exact List.Lex.nil
      · intro _; rfl
  | cons a as ih =>
    intro y
    cases y with
    | nil =>
      constructor
      · intro h; simp [listLt] at h
      · intro h; cases h
    | cons b bs =>
      by_cases h1 : a < b
      · simp only [listLt, if_pos h1]
        exact ⟨fun _ => List.Lex.rel h1, fun _ => trivial⟩
      · by_cases h2 : b < a
        · simp only [listLt, if_neg h1, if_pos h2]
          apply iff_of_false (by simp)
          intro hL
          cases hL with
          | cons h => exact absurd h2 (lt_irrefl a)
          | rel h => exact h1 h
        · have hab : a = b := le_antisymm (le_of_not_lt h2) (le_of_not_lt h1)
          subst hab
          simp only [listLt, if_neg h1, if_neg h2]
          exact (ih bs).trans List.Lex.cons_iff.symm

lemma pyLt_iff (a b : String) : pyLt a b = true ↔ a < b := by
  rw [pyLt, listLt_iff_lex]
  exact (String.lt_iff_toList_lt).symm

lemma pyLe_iff (a b : String) : pyLe a b = true ↔ a ≤ b := by
  rw [pyLe, Bool.not_eq_true', ← Bool.not_eq_true, listLt_iff_lex]
  exact (not_congr String.lt_iff_toList_lt).symm.trans not_lt

lemma digitChar_mono : ∀ d < 10, ∀ e < 10, d < e → Nat.digitChar d < Nat.digitChar e := by
  decide

lemma fmt03_data {i : Nat} (hi : i < 1000) :
    (fmt03 i).data =
      [Nat.digitChar (i / 100), Nat.digitChar (i / 10 % 10), Nat.digitChar (i % 10)] := by
  simp [fmt03, hi]

lemma fmt03_lex {i j : Nat} (hij : i < j) (hj : j < 1000) (s t : List Char) :
    List.Lex (· < ·) ((fmt03 i).data ++ s) ((fmt03 j).data ++ t) := by
  have hi : i < 1000 := lt_trans hij hj
  rw [fmt03_data hi, fmt03_data hj]
  simp only [List.cons_append, List.nil_append]
  have h100i : i / 100 < 10 := by omega
  have h100j : j / 100 < 10 := by omega
  have h10i : i / 10 % 10 < 10 := by omega
  have h10j : j / 10 % 10 < 10 := by omega
  have h1i : i % 10 < 10 := by omega
  have h1j : j % 10 < 10 := by omega
  rcases Nat.lt_trichotomy (i / 100) (j / 100) with hq | hq | hq
  · exact List.Lex.rel (digitChar_mono _ h100i _ h100j hq)
  · rw [hq]
    rcases Nat.lt_trichotomy (i / 10 % 10) (j / 10 % 10) with hm | hm | hm
    · exact List.Lex.cons (List.Lex.rel (digitChar_mono _ h10i _ h10j hm))
    · rw [hm]
      have hl : i % 10 < j % 10 := by omega
      exact List.Lex.cons (List.Lex.cons (List.Lex.rel (digitChar_mono _ h1i _ h1j hl)))
    · omega
  · omega

lemma lex_append_left (p : List Char) {x y : List Char}
    (h : List.Lex (· < ·) x y) : List.Lex (· < ·) (p ++ x) (p ++ y) := by
  induction p with
  | nil => simpa
  | cons a as ih => exact List.Lex.cons ih

lemma chunkName_lt {sid : String} {i j : Nat} (hij : i < j) (hj : j < 1000) :
    chunkName sid i < chunkName sid j := by
  rw [String.lt_iff_toList_lt]
  show List.Lex (· < ·) (chunkName sid i).data (chunkName sid j).data
  simp only [chunkName, String.data_append, List.append_assoc]
  exact lex_append_left _ (fmt03_lex hij hj _ _)

lemma chunkName_inj {sid : String} {i j : Nat} (hi : i < 1000) (hj : j < 1000) :
    chunkName sid i = chunkName sid j → i = j := by
  intro h
  rcases Nat.lt_trichotomy i j with hij | hij | hij
  · exact absurd (h ▸ chunkName_lt hij hj) (lt_irrefl _)
  · exact hij
  · exact absurd (h ▸ chunkName_lt hij hi) (lt_irrefl _)

lemma chunkNames_pairwise (sid : String) {n : Nat} (hn : n ≤ 1000) :
    List.Pairwise (· < ·) ((List.range n).map (chunkName sid)) := by
  rw [List.pairwise_map]
  apply List.Pairwise.imp_of_mem ?_ (List.pairwise_lt_range n)
  intro i j hi hj hij
  exact chunkName_lt hij (lt_of_lt_of_le (List.mem_range.mp hj) hn)

lemma pairwise_pyLe_of_lt {l : List String} (h : List.Pairwise (· < ·) l) :
    List.Pairwise (fun a b => pyLe a b = true) l :=
  h.imp (fun hab => (pyLe_iff _ _).mpr (le_of_lt hab))

lemma sortStrings_sorted_id : ∀ {l : List String},
    List.Pairwise (fun a b => pyLe a b = true) l → sortStrings l = l := by
  intro l
  induction l with
  | nil => intro _; rfl
  | cons a l ih =>
    intro h
    rw [List.pairwise_cons] at h
    obtain ⟨ha, hl⟩ := h
    show insortStr a (sortStrings l) = a :: l
    rw [ih hl]
    cases l with
    | nil => rfl
    | cons b l2 => simp [insortStr, ha b (by simp)]

lemma insortStr_length (a : String) : ∀ l : List String,
    (insortStr a l).length = l.length + 1 := by
  intro l
  induction l with
  | nil => rfl
  | cons b l ih =>
    simp only [insortStr]
    by_cases h : pyLe a b = true
    · simp [h]
    · simp [h, ih]

lemma sortStrings_length : ∀ l : List String, (sortStrings l).length = l.length := by
  intro l
  induction l with
  | nil => rfl
  | cons a l ih => simp [sortStrings, insortStr_length, ih]

lemma filter_chunks (env : Env) (sid : String) (fs0 : List String)
    (h4 : ∀ f ∈ fs0, startswith f (chunkStem sid) = false) :
    (fsSegmented env sid fs0).filter (fun f => startswith f (chunkStem sid)) =
      (List.range env.nSegments).map (chunkName sid) := by
  unfold fsSegmented fsDownloaded
  rw [List.append_assoc, List.filter_append]
  have hfs0 : fs0.filter (fun f => startswith f (chunkStem sid)) = [] := by
    rw [List.filter_eq_nil_iff]
    intro f hf
    simp [h4 f hf]
  rw [hfs0, List.filter_append]
  have htemp : [tempSource sid].filter (fun f => startswith f (chunkStem sid)) = [] := by
    simp [tempSource_not_chunk]
  have hchunks : ((List.range env.nSegments).map (chunkName sid)).filter
      (fun f => startswith f (chunkStem sid)) =
      (List.range env.nSegments).map (chunkName sid) := by
    rw [List.filter_eq_self]
    intro f hf
    obtain ⟨i, _, rfl⟩ := List.mem_map.mp hf
    simp [chunkName_starts]
  rw [htemp, hchunks, List.nil_append, List.nil_append]

lemma chunkFilesOf_eq (env : Env) (sid : String) (fs0 : List String)
    (h4 : ∀ f ∈ fs0, startswith f (chunkStem sid) = false)
    (hn : env.nSegments ≤ 1000) :
    chunkFilesOf env sid fs0 = (List.range env.nSegments).map (chunkName sid) := by
  unfold chunkFilesOf
  rw [filter_chunks env sid fs0 h4]
  exact sortStrings_sorted_id (pairwise_pyLe_of_lt (chunkNames_pairwise sid hn))

lemma transcriptionLoop_spec (env : Env) (hrm : ∀ f, env.removeOk f = true) :
    ∀ (cs : List String) (acc : String) (fs : List String),
      transcriptionLoop env cs acc fs =
        { text := acc ++ concatFrags (cs.map fun c => transcribe_with_retry (env.asr c)),
          fs := cs.foldl List.erase fs,
          ok := true,
          frags := cs.map (fun c => transcribe_with_retry (env.asr c)),
          calls := (cs.map (fun c => asrAttempts (env.asr c))).sum,
          states := statesOf cs fs } := by
  intro cs
  induction cs with
  | nil => intro acc fs; simp [transcriptionLoop, concatFrags, statesOf]
  | cons c rest ih =>
    intro acc fs
    simp only [transcriptionLoop, hrm c, if_true]
    rw [ih]
    simp [concatFrags, statesOf, String.append_assoc]

lemma foldl_erase_of_disjoint : ∀ (cs pre : List String), (∀ c ∈ cs, c ∉ pre) →
    cs.foldl List.erase (pre ++ cs) = pre := by
  intro cs
  induction cs with
  | nil => intro pre _; simp
  | cons c rest ih =>
    intro pre h
    have hc : c ∉ pre := h c (by simp)
    show rest.foldl List.erase ((pre ++ c :: rest).erase c) = pre
    rw [List.erase_append_right _ hc, List.erase_cons_head]
    exact ih pre (fun x hx => h x (by simp [hx]))

lemma statesOf_eq : ∀ (cs pre : List String), (∀ c ∈ cs, c ∉ pre) →
    statesOf cs (pre ++ cs) =
      (List.range (cs.length + 1)).map (fun k => pre ++ cs.drop k) := by
  intro cs
  induction cs with
  | nil => intro pre _; simp [statesOf]
  | cons c rest ih =>
    intro pre h
    have hc : c ∉ pre := h c (by simp)
    show (pre ++ c :: rest) :: statesOf rest ((pre ++ c :: rest).erase c) = _
    rw [List.erase_append_right _ hc, List.erase_cons_head]
    rw [show (c :: rest).length + 1 = ((rest.length + 1) + 1) from rfl,
      List.range_succ_eq_map]
    rw [ih pre (fun x hx => h x (by simp [hx]))]
    simp [List.map_map, Function.comp]

lemma count_foldl_erase_le (x : String) : ∀ (cs fs : List String),
    (cs.foldl List.erase fs).count x ≤ fs.count x := by
  intro cs
  induction cs with
  | nil => intro fs; simp
  | cons c rest ih =>
    intro fs
    calc (rest.foldl List.erase (fs.erase c)).count x ≤ (fs.erase c).count x := ih _
      _ ≤ fs.count x := by
          by_cases h : x = c
          · subst h; rw [List.count_erase_self]; omega
          · rw [List.count_erase_of_ne h]

lemma cleanup_complete (removeOk : String → Bool) (sid : String) (fs : List String)
    (hrm : ∀ f, removeOk f = true) (hcount : fs.count (tempSource sid) ≤ 1) :
    (cleanup removeOk sid fs).2 = false ∧
    ∀ f ∈ (cleanup removeOk sid fs).1,
      f ≠ tempSource sid ∧ startswith f (chunkStem sid) = false := by
  unfold cleanup
  by_cases hmem : fs.contains (tempSource sid) = true
  · rw [if_pos hmem, if_pos (hrm _)]
    refine ⟨rfl, ?_⟩
    intro f hf
    unfold sweepChunks at hf
    rw [List.mem_filter] at hf
    obtain ⟨hmem2, hpred⟩ := hf
    constructor
    · rintro rfl
      have h0 : (fs.erase (tempSource sid)).count (tempSource sid) = 0 := by
        rw [List.count_erase_self]; omega
      rw [List.count_eq_zero] at h0
      exact h0 hmem2
    · simpa [hrm f] using hpred
  · rw [if_neg hmem]
    refine ⟨rfl, ?_⟩
    intro f hf
    unfold sweepChunks at hf
    rw [List.mem_filter] at hf
    obtain ⟨hmem2, hpred⟩ := hf
    constructor
    · rintro rfl
      exact hmem (by simpa using hmem2)
    · simpa [hrm f] using hpred

lemma cleanup_swallows (removeOk : String → Bool) (sid : String) (fs : List String)
    (htemp : removeOk (tempSource sid) = true) :
    (cleanup removeOk sid fs).2 = false ∧
    ∀ f ∈ (cleanup removeOk sid fs).1,
      startswith f (chunkStem sid) = true → removeOk f = false := by
  unfold cleanup
  by_cases hmem : fs.contains (tempSource sid) = true
  · rw [if_pos hmem, if_pos htemp]
    refine ⟨rfl, ?_⟩
    intro f hf hst
    unfold sweepChunks at hf
    rw [List.mem_filter] at hf
    simpa [hst] using hf.2
  · rw [if_neg hmem]
    refine ⟨rfl, ?_⟩
    intro f hf hst
    unfold sweepChunks at hf
    rw [List.mem_filter] at hf
    simpa [hst] using hf.2

lemma transcriptionLoop_fs_count (env : Env) : ∀ (cs : List String) (acc : String)
    (fs : List String) (x : String),
    ((transcriptionLoop env cs acc fs).fs).count x ≤ fs.count x := by
  intro cs
  induction cs with
  | nil => intro acc fs x; simp [transcriptionLoop]
  | cons c rest ih =>
    intro acc fs x
    simp only [transcriptionLoop]
    by_cases hr : env.removeOk c = true
    · rw [if_pos hr]
      calc ((transcriptionLoop env rest _ (fs.erase c)).fs).count x
          ≤ (fs.erase c).count x := ih _ _ _
        _ ≤ fs.count x := by
            by_cases h : x = c
            · subst h; rw [List.count_erase_self]; omega
            · rw [List.count_erase_of_ne h]
    · rw [if_neg hr]

lemma count_temp_fsDownloaded (sid : String) (fs0 : List String)
    (h7 : tempSource sid ∉ fs0) :
    (fsDownloaded sid fs0).count (tempSource sid) = 1 := by
  unfold fsDownloaded
  rw [List.count_append, List.count_eq_zero.mpr h7]
  simp

lemma count_temp_fsSegmented (env : Env) (sid : String) (fs0 : List String)
    (h7 : tempSource sid ∉ fs0) :
    (fsSegmented env sid fs0).count (tempSource sid) = 1 := by
  unfold fsSegmented
  rw [List.count_append, count_temp_fsDownloaded sid fs0 h7]
  have h3 : ((List.range env.nSegments).map (chunkName sid)).count (tempSource sid) = 0 := by
    rw [List.count_eq_zero]
    intro hmem
    obtain ⟨i, _, heq⟩ := List.mem_map.mp hmem
    exact chunkName_ne_tempSource sid i heq
  omega

lemma runBody_count_temp_le (env : Env) (sid : String) (fs0 : List String)
    (iu cp : String) (h7 : tempSource sid ∉ fs0) :
    ((runBody env sid fs0 iu cp).fs).count (tempSource sid) ≤ 1 := by
  have hseg := count_temp_fsSegmented env sid fs0 h7
  have hdl := count_temp_fsDownloaded sid fs0 h7
  unfold runBody
  cases henv : env.fetch with
  | failClean msg => simp [List.count_eq_zero.mpr h7]
  | failPartial msg => simp [hdl]
  | ok =>
    by_cases hq : env.ffmpegOk = true
    · rw [if_pos hq]
      by_cases hempty : (chunkFilesOf env sid fs0).isEmpty = true
      · rw [if_pos hempty]
        simpa using hseg.le
      · rw [if_neg hempty]
        have hcount := transcriptionLoop_fs_count env (chunkFilesOf env sid fs0) ""
          (fsSegmented env sid fs0) (tempSource sid)
        by_cases hok :
            (transcriptionLoop env (chunkFilesOf env sid fs0) "" (fsSegmented env sid fs0)).ok = true
        · rw [if_pos hok]
          simp only
          omega
        · rw [if_neg hok]
          simp only
          omega
    · rw [if_neg hq]
      simpa using hseg.le

lemma process_audio_some (env : Env) (sid : String) (fs0 : List String)
    (iu cp real : String)
    (hres : get_real_audio_url env.httpResp env.findAudioUrl iu = some real) :
    process_audio env sid fs0 iu cp =
      { fs := (cleanup env.removeOk sid (runBody env sid fs0 iu cp).fs).1,
        errors := (runBody env sid fs0 iu cp).errors,
        transcriptOut := (runBody env sid fs0 iu cp).transcript,
        markdown := (runBody env sid fs0 iu cp).markdown,
        frags := (runBody env sid fs0 iu cp).frags,
        summarySource := (runBody env sid fs0 iu cp).summarySource,
        promptSent := (runBody env sid fs0 iu cp).promptSent,
        fetchedUrl := some real,
        asrCalls := (runBody env sid fs0 iu cp).calls,
        raised := (cleanup env.removeOk sid (runBody env sid fs0 iu cp).fs).2,
        loopStates := (runBody env sid fs0 iu cp).states } := by
  unfold process_audio
  rw [hres]

lemma runBody_ok_spec (env : Env) (sid : String) (fs0 : List String) (iu cp : String)
    (hf : env.fetch = FetchOutcome.ok)
    (hq : env.ffmpegOk = true)
    (hne : chunkFilesOf env sid fs0 ≠ [])
    (hrm : ∀ f, env.removeOk f = true) :
    runBody env sid fs0 iu cp =
      { fs := (chunkFilesOf env sid fs0).foldl List.erase (fsSegmented env sid fs0),
        errors := [],
        transcript := some (runTranscript env sid fs0),
        markdown := some (match env.llm (summaryPrompt (runTranscript env sid fs0) iu cp env.timestamp) with
          | some content => content.trim
          | none => degradedDoc env.llmErrMsg (runTranscript env sid fs0)),
        frags := runFrags env sid fs0,
        summarySource := some iu,
        promptSent := some (summaryPrompt (runTranscript env sid fs0) iu cp env.timestamp),
        calls := ((chunkFilesOf env sid fs0).map (fun c => asrAttempts (env.asr c))).sum,
        states := statesOf (chunkFilesOf env sid fs0) (fsSegmented env sid fs0) } := by
  have hempty : (chunkFilesOf env sid fs0).isEmpty = false := by
    simp [List.isEmpty_iff, hne]
  unfold runBody
  rw [hf]
  simp only [hq, if_true, hempty, Bool.false_eq_true, if_false]
  rw [transcriptionLoop_spec env hrm]
  simp only [if_true, String.empty_append]
  rfl

lemma chunkName_not_mem_pre (sid : String) (fs0 : List String) (i : Nat)
    (h4 : ∀ f ∈ fs0, startswith f (chunkStem sid) = false) :
    chunkName sid i ∉ fsDownloaded sid fs0 := by
  unfold fsDownloaded
  intro hmem
  rcases List.mem_append.mp hmem with h | h
  · have h2 := chunkName_starts sid i
    rw [h4 _ h] at h2
    exact Bool.false_ne_true h2
  · simp only [List.mem_singleton] at h
    exact chunkName_ne_tempSource sid i h

lemma chunkFilesOf_length (env : Env) (sid : String) (fs0 : List String)
    (h4 : ∀ f ∈ fs0, startswith f (chunkStem sid) = false) :
    (chunkFilesOf env sid fs0).length = env.nSegments := by
  unfold chunkFilesOf
  rw [sortStrings_length, filter_chunks env sid fs0 h4, List.length_map,
    List.length_range]

lemma chunkFilesOf_ne_nil (env : Env) (sid : String) (fs0 : List String)
    (h4 : ∀ f ∈ fs0, startswith f (chunkStem sid) = false)
    (hn1 : 1 ≤ env.nSegments) :
    chunkFilesOf env sid fs0 ≠ [] := by
  intro h
  have := chunkFilesOf_length env sid fs0 h4
  rw [h] at this
  simp at this
  omega

lemma transcribe_sentinel (asr : Nat → Option String)
    (h0 : asr 0 = none) (h1 : asr 1 = none) (h2 : asr 2 = none) :
    transcribe_with_retry asr = sentinel ∧ asrAttempts asr = 3 := by
  constructor
  · simp [transcribe_with_retry, retryGo, h0, h1, h2]
  · simp [asrAttempts, retryCount, h0, h1, h2]

/-- C6: a URL that is already a direct audio resource — the fetched
Content-Type contains "audio", or the URL ends in `.m4a` or `.mp3` — is
returned unchanged by the resolver. -/

lemma runBody_ffmpeg_fail (env : Env) (sid : String) (fs0 : List String) (iu cp : String)
    (hf : env.fetch = FetchOutcome.ok) (hq : env.ffmpegOk = false) :
    runBody env sid fs0 iu cp =
      { fs := fsSegmented env sid fs0, errors := ["出错：" ++ env.ffmpegErrMsg],
        transcript := none, markdown := none, frags := [], summarySource := none,
        promptSent := none, calls := 0, states := [] } := by
  unfold runBody
  rw [hf]
  simp [hq]

lemma runBody_zero_chunks (env : Env) (sid : String) (fs0 : List String) (iu cp : String)
    (hf : env.fetch = FetchOutcome.ok) (hq : env.ffmpegOk = true)
    (hempty : chunkFilesOf env sid fs0 = []) :
    runBody env sid fs0 iu cp =
      { fs := fsSegmented env sid fs0, errors := ["切片失败，可能是音频格式异常。"],
        transcript := none, markdown := none, frags := [], summarySource := none,
        promptSent := none, calls := 0, states := [] } := by
  unfold runBody
  rw [hf]
  simp [hq, hempty]

lemma chunkFilesOf_nil_of_zero (env : Env) (sid : String) (fs0 : List String)
    (h4 : ∀ f ∈ fs0, startswith f (chunkStem sid) = false)
    (h0 : env.nSegments = 0) :
    chunkFilesOf env sid fs0 = [] := by
  unfold chunkFilesOf
  rw [filter_chunks env sid fs0 h4, h0]
  rfl

/-- C7: if the segmentation tool exits non-zero or produces zero segments,
the run stops with a reported error before any ASR call, delivers no
transcript and no summary, and leaves no session-namespaced file on disk. -/

lemma degraded_errpart_ne_empty (e : String) :
    ("# 自动摘要失败\n\n错误信息：" ++ e ++ "\n\n---\n") ≠ "" := by
  intro h
  have hd := congrArg String.data h
  have h1 : ("# 自动摘要失败\n\n错误信息：" : String).data =
      '#' :: (" 自动摘要失败\n\n错误信息：" : String).data := rfl
  rw [String.data_append, String.data_append, h1] at hd
  simp at hd

/-- C4: when the summarization call raises, the run still completes without
surfacing an error, and the delivered document is the raw transcript,
verbatim, preceded by a non-empty failure banner and error description. -/

lemma filter_fsDownloaded_nil (sid : String) (fs0 : List String)
    (h4 : ∀ f ∈ fs0, startswith f (chunkStem sid) = false) :
    (fsDownloaded sid fs0).filter (fun f => startswith f (chunkStem sid)) = [] := by
  unfold fsDownloaded
  rw [List.filter_append]
  rw [List.filter_eq_nil_iff.mpr (fun f hf => by simp [h4 f hf])]
  simp [tempSource_not_chunk]

lemma chunk_disjoint_pre (env : Env) (sid : String) (fs0 : List String)
    (h4 : ∀ f ∈ fs0, startswith f (chunkStem sid) = false) :
    ∀ c ∈ (List.range env.nSegments).map (chunkName sid),
      c ∉ fsDownloaded sid fs0 := by
  intro c hc
  obtain ⟨i, _, rfl⟩ := List.mem_map.mp hc
  exact chunkName_not_mem_pre sid fs0 i h4

/-- C6: a URL that is already a direct audio resource — the fetched
Content-Type contains "audio", or the URL ends in `.m4a` or `.mp3` — is
returned unchanged by the resolver. -/
theorem c6_resolver_returns_direct_audio_url_unchanged
    (url : String) (r : HttpResponse) (find : String → Option String)
    (h : pyIn "audio" r.contentType = true ∨ endswith url ".m4a" = true ∨
      endswith url ".mp3" = true) :
    get_real_audio_url (some r) find url = some url := by
  unfold get_real_audio_url
  rcases h with h | h | h <;> simp [h]

/-- Witness for C6 at a concrete direct audio response. -/
theorem c6_witness :
    (pyIn "audio" "audio/mpeg" = true ∨ endswith "http://x/ep" ".m4a" = true ∨
      endswith "http://x/ep" ".mp3" = true) ∧
    get_real_audio_url (some ⟨"audio/mpeg", "body"⟩) (fun _ => none) "http://x/ep" =
      some "http://x/ep" :=
  ⟨Or.inl (by decide),
    c6_resolver_returns_direct_audio_url_unchanged "http://x/ep" ⟨"audio/mpeg", "body"⟩
      (fun _ => none) (Or.inl (by decide))⟩

/-- C2: whatever the outcomes of download, segmentation, transcription and
summarization are, a run that reached the download stage leaves no file
namespaced under its session id on disk, provided file deletion itself
succeeds. -/
theorem c2_no_session_artifact_survives_run
    (env : Env) (sid : String) (fs0 : List String) (iu cp real : String)
    (hres : get_real_audio_url env.httpResp env.findAudioUrl iu = some real)
    (hrm : ∀ f, env.removeOk f = true)
    (h7 : tempSource sid ∉ fs0) :
    ∀ f ∈ (process_audio env sid fs0 iu cp).fs,
      f ≠ tempSource sid ∧ startswith f (chunkStem sid) = false := by
  have hbody := runBody_count_temp_le env sid fs0 iu cp h7
  rw [process_audio_some env sid fs0 iu cp real hres]
  exact (cleanup_complete env.removeOk sid _ hrm hbody).2

/-- Witness for C2 at a concrete successful two-segment run. -/
theorem c2_witness :
    get_real_audio_url wEnv.httpResp wEnv.findAudioUrl "http://page" =
      some "http://cdn.example/a.m4a" ∧
    ∀ f ∈ (process_audio wEnv "s" [] "http://page" "note").fs,
      f ≠ tempSource "s" ∧ startswith f (chunkStem "s") = false :=
  ⟨by decide,
    c2_no_session_artifact_survives_run wEnv "s" [] "http://page" "note"
      "http://cdn.example/a.m4a" (by decide) (fun _ => rfl) (by simp)⟩

/-- C5 counterexample: when removing the downloaded media file raises, the
exception escapes the run and the chunk sweep never happens — a removable
chunk file survives on disk even though its own removal would succeed. -/
theorem c5_counterexample :
    (process_audio envC5 "s" [] "http://page" "note").raised = true ∧
    "chunk_s_000.mp3" ∈ (process_audio envC5 "s" [] "http://page" "note").fs ∧
    envC5.removeOk "chunk_s_000.mp3" = true := by
  decide

/-- C5 (amended): in the final cleanup block each chunk-file deletion error
is swallowed — every session chunk whose removal succeeds is gone, no
matter how many other chunk removals fail, and no error escapes — provided
the unguarded removal of the downloaded media file does not itself fail. -/
theorem c5_amended_chunk_deletion_errors_swallowed
    (env : Env) (sid : String) (fs0 : List String) (iu cp real : String)
    (hres : get_real_audio_url env.httpResp env.findAudioUrl iu = some real)
    (htemp : env.removeOk (tempSource sid) = true) :
    (process_audio env sid fs0 iu cp).raised = false ∧
    ∀ f ∈ (process_audio env sid fs0 iu cp).fs,
      startswith f (chunkStem sid) = true → env.removeOk f = false := by
  rw [process_audio_some env sid fs0 iu cp real hres]
  exact cleanup_swallows env.removeOk sid _ htemp

/-- Witness for the amended C5 at a concrete run. -/
theorem c5_amended_witness :
    wEnv.removeOk (tempSource "s") = true ∧
    (process_audio wEnv "s" [] "http://page" "note").raised = false ∧
    ∀ f ∈ (process_audio wEnv "s" [] "http://page" "note").fs,
      startswith f (chunkStem "s") = true → wEnv.removeOk f = false := by
  have h := c5_amended_chunk_deletion_errors_swallowed wEnv "s" [] "http://page"
    "note" "http://cdn.example/a.m4a" (by decide) rfl
  exact ⟨rfl, h.1, h.2⟩

/-- C7: if the segmentation tool exits non-zero or produces zero segments,
the run stops with a reported error before any ASR call, delivers no
transcript and no summary, and leaves no session-namespaced file on disk. -/
theorem c7_segmentation_failure_terminal_no_asr_clean_disk
    (env : Env) (sid : String) (fs0 : List String) (iu cp real : String)
    (hres : get_real_audio_url env.httpResp env.findAudioUrl iu = some real)
    (hrm : ∀ f, env.removeOk f = true)
    (h7 : tempSource sid ∉ fs0)
    (h4 : ∀ f ∈ fs0, startswith f (chunkStem sid) = false)
    (hf : env.fetch = FetchOutcome.ok)
    (hfail : env.ffmpegOk = false ∨ env.nSegments = 0) :
    ((process_audio env sid fs0 iu cp).errors = ["出错：" ++ env.ffmpegErrMsg] ∨
      (process_audio env sid fs0 iu cp).errors = ["切片失败，可能是音频格式异常。"]) ∧
    (process_audio env sid fs0 iu cp).asrCalls = 0 ∧
    (process_audio env sid fs0 iu cp).transcriptOut = none ∧
    (process_audio env sid fs0 iu cp).markdown = none ∧
    (∀ f ∈ (process_audio env sid fs0 iu cp).fs,
      f ≠ tempSource sid ∧ startswith f (chunkStem sid) = false) ∧
    (process_audio env sid fs0 iu cp).raised = false := by
  have hcount : (fsSegmented env sid fs0).count (tempSource sid) ≤ 1 :=
    le_of_eq (count_temp_fsSegmented env sid fs0 h7)
  rw [process_audio_some env sid fs0 iu cp real hres]
  have hclean := cleanup_complete env.removeOk sid (fsSegmented env sid fs0) hrm hcount
  rcases hfail with hq | h0
  · rw [runBody_ffmpeg_fail env sid fs0 iu cp hf hq]
    exact ⟨Or.inl rfl, rfl, rfl, rfl, hclean.2, hclean.1⟩
  · by_cases hq : env.ffmpegOk = true
    · rw [runBody_zero_chunks env sid fs0 iu cp hf hq
        (chunkFilesOf_nil_of_zero env sid fs0 h4 h0)]
      exact ⟨Or.inr rfl, rfl, rfl, rfl, hclean.2, hclean.1⟩
    · have hq2 : env.ffmpegOk = false := by simpa using hq
      rw [runBody_ffmpeg_fail env sid fs0 iu cp hf hq2]
      exact ⟨Or.inl rfl, rfl, rfl, rfl, hclean.2, hclean.1⟩

/-- Witness for C7 at a concrete run whose segmentation tool exits
non-zero. -/
theorem c7_witness :
    envC7.ffmpegOk = false ∧
    (process_audio envC7 "s" [] "http://page" "note").asrCalls = 0 ∧
    (process_audio envC7 "s" [] "http://page" "note").transcriptOut = none ∧
    (∀ f ∈ (process_audio envC7 "s" [] "http://page" "note").fs,
      f ≠ tempSource "s" ∧ startswith f (chunkStem "s") = false) := by
  have h := c7_segmentation_failure_terminal_no_asr_clean_disk envC7 "s" []
    "http://page" "note" "http://cdn.example/a.m4a" (by decide) (fun _ => rfl)
    (by simp) (by simp) rfl (Or.inl rfl)
  exact ⟨rfl, h.2.1, h.2.2.1, h.2.2.2.2.1⟩

/-- C4: when the summarization call raises, the run still completes without
surfacing an error, and the delivered document is the raw transcript,
verbatim, preceded by a non-empty failure banner and error description. -/
theorem c4_summarization_failure_degrades_to_transcript_with_error
    (env : Env) (sid : String) (fs0 : List String) (iu cp real : String)
    (hres : get_real_audio_url env.httpResp env.findAudioUrl iu = some real)
    (hf : env.fetch = FetchOutcome.ok)
    (hq : env.ffmpegOk = true)
    (hrm : ∀ f, env.removeOk f = true)
    (h4 : ∀ f ∈ fs0, startswith f (chunkStem sid) = false)
    (h7 : tempSource sid ∉ fs0)
    (hn1 : 1 ≤ env.nSegments)
    (hllm : ∀ p, env.llm p = none) :
    (process_audio env sid fs0 iu cp).raised = false ∧
    (process_audio env sid fs0 iu cp).errors = [] ∧
    (process_audio env sid fs0 iu cp).transcriptOut = some (runTranscript env sid fs0) ∧
    (process_audio env sid fs0 iu cp).markdown =
      some (("# 自动摘要失败\n\n错误信息：" ++ env.llmErrMsg ++ "\n\n---\n") ++
        runTranscript env sid fs0) ∧
    ("# 自动摘要失败\n\n错误信息：" ++ env.llmErrMsg ++ "\n\n---\n") ≠ "" := by
  have hne := chunkFilesOf_ne_nil env sid fs0 h4 hn1
  have hcount : ((chunkFilesOf env sid fs0).foldl List.erase
      (fsSegmented env sid fs0)).count (tempSource sid) ≤ 1 := by
    calc ((chunkFilesOf env sid fs0).foldl List.erase
        (fsSegmented env sid fs0)).count (tempSource sid)
        ≤ (fsSegmented env sid fs0).count (tempSource sid) :=
          count_foldl_erase_le _ _ _
      _ ≤ 1 := le_of_eq (count_temp_fsSegmented env sid fs0 h7)
  rw [process_audio_some env sid fs0 iu cp real hres,
    runBody_ok_spec env sid fs0 iu cp hf hq hne hrm]
  refine ⟨(cleanup_complete env.removeOk sid _ hrm hcount).1, rfl, rfl, ?_,
    degraded_errpart_ne_empty _⟩
  simp only [hllm]
  rfl

/-- Witness for C4 at a concrete run whose summarization call raises. -/
theorem c4_witness :
    (∀ p, envC4.llm p = none) ∧
    (process_audio envC4 "s" [] "http://page" "note").raised = false ∧
    (process_audio envC4 "s" [] "http://page" "note").markdown =
      some (("# 自动摘要失败\n\n错误信息：" ++ envC4.llmErrMsg ++ "\n\n---\n") ++
        runTranscript envC4 "s" []) := by
  have h := c4_summarization_failure_degrades_to_transcript_with_error envC4 "s" []
    "http://page" "note" "http://cdn.example/a.m4a" (by decide) rfl rfl
    (fun _ => rfl) (by simp) (by simp) (by decide) (fun _ => rfl)
  exact ⟨fun _ => rfl, h.1, h.2.2.2.1⟩

/-- C9: the summarizer is invoked with the original user-entered input URL,
not the resolved media URL, and the prompt it builds embeds that input URL
verbatim in its metadata requirements. -/
theorem c9_summarizer_receives_input_url_not_resolved_url
    (env : Env) (sid : String) (fs0 : List String) (iu cp real : String)
    (hres : get_real_audio_url env.httpResp env.findAudioUrl iu = some real)
    (hdiff : real ≠ iu)
    (hf : env.fetch = FetchOutcome.ok)
    (hq : env.ffmpegOk = true)
    (hrm : ∀ f, env.removeOk f = true)
    (h4 : ∀ f ∈ fs0, startswith f (chunkStem sid) = false)
    (hn1 : 1 ≤ env.nSegments) :
    (process_audio env sid fs0 iu cp).summarySource = some iu ∧
    (process_audio env sid fs0 iu cp).summarySource ≠ some real ∧
    ∃ a b, (process_audio env sid fs0 iu cp).promptSent =
      some (a ++ ("原始链接：" ++ iu) ++ b) := by
  have hne := chunkFilesOf_ne_nil env sid fs0 h4 hn1
  rw [process_audio_some env sid fs0 iu cp real hres,
    runBody_ok_spec env sid fs0 iu cp hf hq hne hrm]
  refine ⟨rfl, ?_, ?_⟩
  · intro h
    simp only [Option.some.injEq] at h
    exact hdiff h.symm
  · refine ⟨promptHead,
      "”和“整理时间：" ++ env.timestamp ++
        "”）\n3. 摘要（列出 3~4 条要点）\n4. 逐段正文（按逻辑段落概括）\n5. 灵感/待办（用 - [ ] 形式至少 2 条）\n\n用户附加提示如下：\n" ++
        cp ++
        "\n\n以下是播客的完整转写内容，请在满足固定模块的前提下生成 Markdown：\n" ++
        runTranscript env sid fs0 ++ "\n", ?_⟩
    simp [summaryPrompt, String.append_assoc]

/-- Witness for C9 at a concrete run in which resolution rewrote the input
URL. -/
theorem c9_witness :
    get_real_audio_url wEnv.httpResp wEnv.findAudioUrl "http://page" =
      some "http://cdn.example/a.m4a" ∧
    ("http://cdn.example/a.m4a" : String) ≠ "http://page" ∧
    (process_audio wEnv "s" [] "http://page" "note").summarySource =
      some "http://page" ∧
    (∃ a b, (process_audio wEnv "s" [] "http://page" "note").promptSent =
      some (a ++ ("原始链接：" ++ "http://page") ++ b)) := by
  have h := c9_summarizer_receives_input_url_not_resolved_url wEnv "s" []
    "http://page" "note" "http://cdn.example/a.m4a" (by decide) (by decide)
    rfl rfl (fun _ => rfl) (by simp) (by decide)
  exact ⟨by decide, by decide, h.1, h.2.2⟩

/-- C3: a segment whose three ASR attempts all raise consumes exactly 3
attempts, contributes exactly the sentinel failure marker as its fragment,
and every other segment of the run is still transcribed in its place. -/
theorem c3_three_failed_attempts_yield_sentinel_and_run_continues
    (env : Env) (sid : String) (fs0 : List String) (iu cp real c : String) (j : Nat)
    (hres : get_real_audio_url env.httpResp env.findAudioUrl iu = some real)
    (hf : env.fetch = FetchOutcome.ok)
    (hq : env.ffmpegOk = true)
    (hrm : ∀ f, env.removeOk f = true)
    (h4 : ∀ f ∈ fs0, startswith f (chunkStem sid) = false)
    (hc : (chunkFilesOf env sid fs0)[j]? = some c)
    (ha0 : env.asr c 0 = none) (ha1 : env.asr c 1 = none) (ha2 : env.asr c 2 = none) :
    asrAttempts (env.asr c) = 3 ∧
    (process_audio env sid fs0 iu cp).frags[j]? = some sentinel ∧
    (process_audio env sid fs0 iu cp).frags.length = env.nSegments ∧
    (∀ (k : Nat) (c2 : String), (chunkFilesOf env sid fs0)[k]? = some c2 →
      (process_audio env sid fs0 iu cp).frags[k]? =
        some (transcribe_with_retry (env.asr c2))) := by
  have hne : chunkFilesOf env sid fs0 ≠ [] := by
    intro h
    rw [h] at hc
    simp at hc
  have hsent := transcribe_sentinel (env.asr c) ha0 ha1 ha2
  rw [process_audio_some env sid fs0 iu cp real hres,
    runBody_ok_spec env sid fs0 iu cp hf hq hne hrm]
  refine ⟨hsent.2, ?_, ?_, ?_⟩
  · show (runFrags env sid fs0)[j]? = some sentinel
    unfold runFrags
    rw [List.getElem?_map, hc]
    simp [hsent.1]
  · show (runFrags env sid fs0).length = env.nSegments
    unfold runFrags
    rw [List.length_map, chunkFilesOf_length env sid fs0 h4]
  · intro k c2 hk
    show (runFrags env sid fs0)[k]? = some (transcribe_with_retry (env.asr c2))
    unfold runFrags
    rw [List.getElem?_map, hk]
    rfl

/-- Witness for C3 at a concrete two-segment run whose first segment fails
all three ASR attempts. -/
theorem c3_witness :
    (chunkFilesOf envC3 "s" [])[0]? = some "chunk_s_000.mp3" ∧
    envC3.asr "chunk_s_000.mp3" 0 = none ∧
    asrAttempts (envC3.asr "chunk_s_000.mp3") = 3 ∧
    (process_audio envC3 "s" [] "http://page" "note").frags[0]? = some sentinel ∧
    (process_audio envC3 "s" [] "http://page" "note").frags.length = envC3.nSegments := by
  have h := c3_three_failed_attempts_yield_sentinel_and_run_continues envC3 "s" []
    "http://page" "note" "http://cdn.example/a.m4a" "chunk_s_000.mp3" 0
    (by decide) rfl rfl (fun _ => rfl) (by simp) (by decide)
    (by decide) (by decide) (by decide)
  exact ⟨by decide, by decide, h.1, h.2.1, h.2.2.1⟩

set_option maxRecDepth 100000 in
/-- C1 counterexample: in a run with 1001 segments the lexicographically
sorted processing order diverges from ordinal order, so the fragment at
position 101 is the transcription of the segment with ordinal 1000, not of
the segment with ordinal 101. -/
theorem c1_counterexample :
    (process_audio envBig "s" [] "http://page" "note").frags[101]? =
      some "chunk_s_1000.mp3" ∧
    transcribe_with_retry (envBig.asr (chunkName "s" 101)) = "chunk_s_101.mp3" ∧
    (process_audio envBig "s" [] "http://page" "note").frags[101]? ≠
      some (transcribe_with_retry (envBig.asr (chunkName "s" 101))) := by
  have h1 : (process_audio envBig "s" [] "http://page" "note").frags[101]? =
      some "chunk_s_1000.mp3" := by decide
  have h2 : transcribe_with_retry (envBig.asr (chunkName "s" 101)) =
      "chunk_s_101.mp3" := by decide
  refine ⟨h1, h2, ?_⟩
  rw [h1, h2]
  decide

/-- C1 (amended): when segmentation yields between 1 and 1000 segments and
the loop completes, the run produces exactly one fragment per segment, the
fragment at position `i` is the transcription of the segment with ordinal
`i`, and the delivered transcript is their concatenation with one newline
after each fragment. -/
theorem c1_amended_fragments_match_segments_in_order
    (env : Env) (sid : String) (fs0 : List String) (iu cp real : String)
    (hres : get_real_audio_url env.httpResp env.findAudioUrl iu = some real)
    (hf : env.fetch = FetchOutcome.ok)
    (hq : env.ffmpegOk = true)
    (hrm : ∀ f, env.removeOk f = true)
    (h4 : ∀ f ∈ fs0, startswith f (chunkStem sid) = false)
    (hn1 : 1 ≤ env.nSegments)
    (hn : env.nSegments ≤ 1000) :
    (process_audio env sid fs0 iu cp).frags.length = env.nSegments ∧
    (∀ i, i < env.nSegments →
      (process_audio env sid fs0 iu cp).frags[i]? =
        some (transcribe_with_retry (env.asr (chunkName sid i)))) ∧
    (process_audio env sid fs0 iu cp).transcriptOut =
      some (concatFrags (process_audio env sid fs0 iu cp).frags) := by
  have hne := chunkFilesOf_ne_nil env sid fs0 h4 hn1
  have hcf := chunkFilesOf_eq env sid fs0 h4 hn
  rw [process_audio_some env sid fs0 iu cp real hres,
    runBody_ok_spec env sid fs0 iu cp hf hq hne hrm]
  refine ⟨?_, ?_, rfl⟩
  · show (runFrags env sid fs0).length = env.nSegments
    unfold runFrags
    rw [List.length_map, chunkFilesOf_length env sid fs0 h4]
  · intro i hi
    show (runFrags env sid fs0)[i]? =
      some (transcribe_with_retry (env.asr (chunkName sid i)))
    unfold runFrags
    rw [hcf, List.getElem?_map, List.getElem?_map, List.getElem?_range hi]
    rfl

/-- Witness for the amended C1 at a concrete successful two-segment run. -/
theorem c1_amended_witness :
    (1 ≤ wEnv.nSegments ∧ wEnv.nSegments ≤ 1000) ∧
    (process_audio wEnv "s" [] "http://page" "note").frags.length =
      wEnv.nSegments ∧
    (process_audio wEnv "s" [] "http://page" "note").frags[0]? =
      some (transcribe_with_retry (wEnv.asr (chunkName "s" 0))) ∧
    (process_audio wEnv "s" [] "http://page" "note").transcriptOut =
      some (concatFrags (process_audio wEnv "s" [] "http://page" "note").frags) := by
  have h := c1_amended_fragments_match_segments_in_order wEnv "s" [] "http://page"
    "note" "http://cdn.example/a.m4a" (by decide) rfl rfl (fun _ => rfl)
    (by simp) (by decide) (by decide)
  exact ⟨⟨by decide, by decide⟩, h.1, h.2.1 0 (by decide), h.2.2⟩

/-- C10: the segment file names generated by the zero-padded pattern are in
strictly increasing lexicographic order for ordinals below 1000, so the
sorted directory listing that the pipeline builds coincides with ordinal
order whenever at most 1000 segments were produced. -/
theorem c10_lexicographic_file_order_is_ordinal_order_below_1000
    (env : Env) (sid : String) (fs0 : List String)
    (h4 : ∀ f ∈ fs0, startswith f (chunkStem sid) = false)
    (hn : env.nSegments ≤ 1000) :
    chunkFilesOf env sid fs0 = (List.range env.nSegments).map (chunkName sid) ∧
    List.Pairwise (· < ·) ((List.range env.nSegments).map (chunkName sid)) :=
  ⟨chunkFilesOf_eq env sid fs0 h4 hn, chunkNames_pairwise sid hn⟩

/-- Witness for C10 at a concrete two-segment session. -/
theorem c10_witness :
    wEnv.nSegments ≤ 1000 ∧
    chunkFilesOf wEnv "s" [] = (List.range wEnv.nSegments).map (chunkName "s") ∧
    List.Pairwise (· < ·) ((List.range wEnv.nSegments).map (chunkName "s")) := by
  have h := c10_lexicographic_file_order_is_ordinal_order_below_1000 wEnv "s" []
    (by simp) (by decide)
  exact ⟨by decide, h.1, h.2⟩

/-- C8 counterexample: immediately after segmentation, at the start of the
first loop iteration, both segment files of a two-segment run are on disk
at once, so disk usage during transcription is not bounded by one segment
(it peaks at all `n` segments). -/
theorem c8_counterexample :
    (process_audio wEnv "s" [] "http://page" "note").loopStates[0]? =
      some ["src_s.m4a", "chunk_s_000.mp3", "chunk_s_001.mp3"] ∧
    ¬((["src_s.m4a", "chunk_s_000.mp3", "chunk_s_001.mp3"].filter
        (fun f => startswith f (chunkStem "s"))).length ≤ 1) := by
  decide

/-- C8 (amended): each segment file is deleted right after its
transcription attempt and before the next segment is transcribed, but the
segmentation stage has already materialised every segment: at the start of
loop iteration `i` exactly `n - i` segment files remain on disk, so peak
usage during transcription is `n` segments, not a constant. -/
theorem c8_amended_segment_deleted_after_use_but_peak_is_linear
    (env : Env) (sid : String) (fs0 : List String) (iu cp real : String)
    (hres : get_real_audio_url env.httpResp env.findAudioUrl iu = some real)
    (hf : env.fetch = FetchOutcome.ok)
    (hq : env.ffmpegOk = true)
    (hrm : ∀ f, env.removeOk f = true)
    (h4 : ∀ f ∈ fs0, startswith f (chunkStem sid) = false)
    (hn1 : 1 ≤ env.nSegments)
    (hn : env.nSegments ≤ 1000) :
    (∀ (i j : Nat) (s : List String), i + 1 ≤ env.nSegments → j ≤ i →
      (process_audio env sid fs0 iu cp).loopStates[i + 1]? = some s →
      chunkName sid j ∉ s) ∧
    (∀ (i : Nat) (s : List String), i ≤ env.nSegments →
      (process_audio env sid fs0 iu cp).loopStates[i]? = some s →
      (s.filter (fun f => startswith f (chunkStem sid))).length =
        env.nSegments - i) := by
  have hne := chunkFilesOf_ne_nil env sid fs0 h4 hn1
  have hcf := chunkFilesOf_eq env sid fs0 h4 hn
  have hdisj := chunk_disjoint_pre env sid fs0 h4
  have hlen : ((List.range env.nSegments).map (chunkName sid)).length =
      env.nSegments := by simp
  have hstates : (process_audio env sid fs0 iu cp).loopStates =
      (List.range (env.nSegments + 1)).map
        (fun k => fsDownloaded sid fs0 ++
          ((List.range env.nSegments).map (chunkName sid)).drop k) := by
    rw [process_audio_some env sid fs0 iu cp real hres,
      runBody_ok_spec env sid fs0 iu cp hf hq hne hrm]
    show statesOf (chunkFilesOf env sid fs0) (fsSegmented env sid fs0) = _
    rw [hcf]
    show statesOf _
      (fsDownloaded sid fs0 ++ (List.range env.nSegments).map (chunkName sid)) = _
    rw [statesOf_eq _ _ hdisj, hlen]
  have hget : ∀ i, i ≤ env.nSegments →
      (process_audio env sid fs0 iu cp).loopStates[i]? =
        some (fsDownloaded sid fs0 ++
          ((List.range env.nSegments).map (chunkName sid)).drop i) := by
    intro i hi
    rw [hstates, List.getElem?_map, List.getElem?_range (by omega)]
    rfl
  constructor
  · intro i j s hi hj hs
    rw [hget (i + 1) hi] at hs
    injection hs with hs
    subst hs
    intro hmem
    rcases List.mem_append.mp hmem with h | h
    · exact chunkName_not_mem_pre sid fs0 j h4 h
    · rw [List.mem_drop_iff_getElem] at h
      obtain ⟨k, hk, hkeq⟩ := h
      rw [hlen] at hk
      rw [List.getElem_map, List.getElem_range] at hkeq
      have : i + 1 + k = j :=
        chunkName_inj (by omega) (by omega) hkeq
      omega
  · intro i s hi hs
    rw [hget i hi] at hs
    injection hs with hs
    subst hs
    rw [List.filter_append, filter_fsDownloaded_nil sid fs0 h4, List.nil_append]
    rw [List.filter_eq_self.mpr]
    · rw [List.length_drop, hlen]
    · intro f hf2
      have hf3 := List.mem_of_mem_drop hf2
      obtain ⟨k, _, rfl⟩ := List.mem_map.mp hf3
      simp [chunkName_starts]

/-- Witness for the amended C8 at a concrete two-segment run. -/
theorem c8_amended_witness :
    (1 ≤ wEnv.nSegments ∧ wEnv.nSegments ≤ 1000) ∧
    (∀ (s : List String),
      (process_audio wEnv "s" [] "http://page" "note").loopStates[1]? = some s →
      chunkName "s" 0 ∉ s) ∧
    (∀ (s : List String),
      (process_audio wEnv "s" [] "http://page" "note").loopStates[0]? = some s →
      (s.filter (fun f => startswith f (chunkStem "s"))).length =
        wEnv.nSegments - 0) := by
  have h := c8_amended_segment_deleted_after_use_but_peak_is_linear wEnv "s" []
    "http://page" "note" "http://cdn.example/a.m4a" (by decide) rfl rfl
    (fun _ => rfl) (by simp) (by decide) (by decide)
  exact ⟨⟨by decide, by decide⟩,
    fun s hs => h.1 0 0 s (by decide) (by decide) hs,
    fun s hs => h.2 0 s (by decide) hs⟩

end PodcastTranscriber
